import Mathlib

/-!
Verification of the GEF CPT parser from `src/extension.ts` (vscode_cptviewer).

The TypeScript source is shallowly embedded: JavaScript numbers are modelled
as exact rationals adjoined with a NaN element (`JsNum`); JavaScript strings
are lists of characters (`Str`); the mutable `Cpt` object and the `metadata`
record are explicit state threaded through the line-processing functions.
`undefined` values arising from out-of-range array indexing or absent object
keys are collapsed to NaN, which is behaviour-equivalent in every numeric
context the source uses them in (`isNaN`, `===` against a number, arithmetic,
ordered comparison all treat `undefined` and `NaN` alike).

Binary floating-point rounding error, the special value `Infinity`, radix
prefixes of `parseInt` and the `Infinity` literal of `parseFloat` play no
role in any claim; numerals are modelled exactly over the rationals, with a
small self-contained normalized-rational type `Q` so that every definition
evaluates inside the kernel.
-/

/-- An exact rational: integer numerator, positive natural denominator, kept
in lowest terms by the `Q.norm` smart constructor. All values flowing through
the parser are built by `Q.norm` (or are literal coprime pairs), so
structural equality coincides with rational equality. -/
structure Q where
  num : Int
  den : Nat
deriving DecidableEq

/-- Smart constructor reducing `n / d` to lowest terms (`d` is positive at
every call site; the `g = 0` branch is unreachable padding). -/
def Q.norm (n : Int) (d : Nat) : Q :=
  let g := n.natAbs.gcd d
  if g = 0 then ⟨0, 1⟩ else ⟨n / (g : Int), d / g⟩

/-- Embed an integer. -/
def Q.ofInt (n : Int) : Q := ⟨n, 1⟩

/-- Rational addition. -/
def Q.add (a b : Q) : Q := Q.norm (a.num * b.den + b.num * a.den) (a.den * b.den)

/-- Rational subtraction. -/
def Q.sub (a b : Q) : Q := Q.norm (a.num * b.den - b.num * a.den) (a.den * b.den)

/-- Rational multiplication. -/
def Q.mul (a b : Q) : Q := Q.norm (a.num * b.num) (a.den * b.den)

/-- Rational division (`b.num = 0` is guarded away at every call site). -/
def Q.divQ (a b : Q) : Q :=
  Q.norm (a.num * b.den * (if b.num < 0 then -1 else 1)) (a.den * b.num.natAbs)

/-- Rational absolute value. -/
def Q.absQ (a : Q) : Q := ⟨(a.num.natAbs : Int), a.den⟩

/-- Rational `≤` by cross-multiplication (denominators are positive). -/
def Q.ble (a b : Q) : Bool := a.num * (b.den : Int) ≤ b.num * (a.den : Int)

/-- Rational `<` by cross-multiplication (denominators are positive). -/
def Q.blt (a b : Q) : Bool := a.num * (b.den : Int) < b.num * (a.den : Int)

/-- Round `a * 100` to the nearest integer (half up) and divide by 100:
the exact-arithmetic model of `parseFloat(a.toFixed(2))` on a number. -/
def Q.round2 (a : Q) : Q :=
  let m := a.num * 100
  Q.norm (Int.fdiv (2 * m + a.den) (2 * a.den)) 100

/-- JavaScript strings, modelled as lists of characters. -/
abbrev Str := List Char

/-- A JavaScript number: either NaN or an exact rational value. -/
inductive JsNum where
  | nan : JsNum
  | num : Q → JsNum
deriving DecidableEq

namespace JsNum

/-- JS `isNaN(x)` for the values we store (our collapsed `undefined` included). -/
def isNaN : JsNum → Bool
  | .nan => true
  | .num _ => false

end JsNum

/-- JS subtraction: NaN-propagating. -/
def jsSub : JsNum → JsNum → JsNum
  | .num a, .num b => .num (a.sub b)
  | _, _ => .nan

/-- JS multiplication: NaN-propagating. -/
def jsMul : JsNum → JsNum → JsNum
  | .num a, .num b => .num (a.mul b)
  | _, _ => .nan

/-- JS division as used by the source. The only division, `fs / qc` in
`postProcess`, is guarded by `qc === 0.0`, so the zero-divisor case (which JS
would send to ±Infinity) is unreachable; we map it to NaN to stay total. -/
def jsDiv : JsNum → JsNum → JsNum
  | .num a, .num b => if b.num = 0 then .nan else .num (a.divQ b)
  | _, _ => .nan

/-- JS `Math.abs`. -/
def jsAbs : JsNum → JsNum
  | .nan => .nan
  | .num a => .num a.absQ

/-- JS strict equality `===` on numbers: NaN compares unequal to everything. -/
def jsEq : JsNum → JsNum → Bool
  | .num a, .num b => a = b
  | _, _ => false

/-- JS `<=` on numbers: any comparison against NaN is false. -/
def jsLe : JsNum → JsNum → Bool
  | .num a, .num b => a.ble b
  | _, _ => false

/-- JS `v > 0` on numbers: false for NaN, `0 < v` otherwise. -/
def jsGtZero : JsNum → Bool
  | .nan => false
  | .num a => (Q.ofInt 0).blt a

/-- JS `parseFloat(x.toFixed(2))`: `NaN.toFixed(2)` is the string "NaN",
which parses back to NaN; a number is rounded to two decimals. -/
def jsRound2 : JsNum → JsNum
  | .nan => .nan
  | .num a => .num a.round2

/-- A JS integer-valued number (result of `parseInt`): NaN or an integer. -/
abbrev JsInt := Option Int

/-- JS `x < k` for a `parseInt` result: false when `x` is NaN. -/
def jsIntLt (o : JsInt) (k : Int) : Bool :=
  match o with
  | none => false
  | some v => v < k

/-- JS `x > k` for a `parseInt` result: false when `x` is NaN. -/
def jsIntGt (o : JsInt) (k : Int) : Bool :=
  match o with
  | none => false
  | some v => k < v

/-- JS `x - 1` for a `parseInt` result, NaN-propagating. -/
def jsIntSub1 (o : JsInt) : JsInt :=
  match o with
  | none => none
  | some v => some (v - 1)

/-- JS array indexing `args[i]` with an integer-or-NaN index; out-of-range and
NaN indexes give `undefined`, collapsed to NaN. -/
def jsIndex (args : List JsNum) (i : JsInt) : JsNum :=
  match i with
  | none => .nan
  | some k => if k < 0 then .nan else args.getD k.toNat .nan

/-- JS array indexing where the index itself may be an absent object property
(`args[metadata.columnInfo[t]]` with the key `t` never set gives
`args[undefined] = undefined`). -/
def jsIndexO (args : List JsNum) (i : Option JsInt) : JsNum :=
  match i with
  | none => .nan
  | some k => jsIndex args k

/-- String.prototype.trim. -/
def trim (s : Str) : Str :=
  ((s.dropWhile Char.isWhitespace).reverse.dropWhile Char.isWhitespace).reverse

/-- String.prototype.toUpperCase (ASCII, which is all the source compares). -/
def toUpperStr (s : Str) : Str := s.map Char.toUpper

/-- Does `sub` occur as a prefix of some suffix of the list? -/
def anyPrefixAt (sub : Str) : Str → Bool
  | [] => false
  | c :: t => sub.isPrefixOf (c :: t) || anyPrefixAt sub t

/-- String.prototype.includes. -/
def containsSub (s sub : Str) : Bool :=
  sub.isEmpty || anyPrefixAt sub s

/-- Worker for `splitOn`: `skip` counts separator characters still being
consumed after a match (the matched separator's head was consumed by the
emitting step). -/
def splitAux (sep : Str) : Str → Nat → Str → List Str
  | [], _, acc => [acc.reverse]
  | _ :: t, Nat.succ k, acc => splitAux sep t k acc
  | c :: t, 0, acc =>
    if sep.isPrefixOf (c :: t) then
      acc.reverse :: splitAux sep t (sep.length - 1) []
    else
      splitAux sep t 0 (c :: acc)

/-- String.prototype.split on a string separator: leftmost non-overlapping
matches; the empty separator splits into single characters. -/
def splitOn (sep s : Str) : List Str :=
  if sep.isEmpty then s.map (fun c => [c]) else splitAux sep s 0 []

/-- Worker for `replaceFirst`. -/
def replaceFirstAux (sep : Str) : Str → Str
  | [] => []
  | c :: t =>
    if sep.isPrefixOf (c :: t) then t.drop (sep.length - 1)
    else c :: replaceFirstAux sep t

/-- JS `s.replace(sep, "")` with a string pattern: removes the first
occurrence only; the empty pattern with empty replacement is the identity. -/
def replaceFirst (sep s : Str) : Str :=
  if sep.isEmpty then s else replaceFirstAux sep s

/-- Numeric value of a list of decimal digit characters. -/
def natOfDigits (ds : List Char) : Nat :=
  ds.foldl (fun a c => a * 10 + (c.toNat - 48)) 0

/-- Optional leading sign; returns the sign as an integer and the rest. -/
def readSign : Str → Int × Str
  | '-' :: t => (-1, t)
  | '+' :: t => (1, t)
  | s => (1, s)

/-- Exponent suffix of a JS float numeral applied to the mantissa numerator
and denominator; an `e` not followed by digits is ignored, as `parseFloat`
stops reading there. -/
def readExp (r : Str) (n : Nat) (d : Nat) : Nat × Nat :=
  match r with
  | c :: t =>
    if c = 'e' ∨ c = 'E' then
      let st := readSign t
      let ed := st.2.takeWhile Char.isDigit
      if ed.isEmpty then (n, d)
      else if st.1 = 1 then (n * 10 ^ natOfDigits ed, d)
      else (n, d * 10 ^ natOfDigits ed)
    else (n, d)
  | [] => (n, d)

/-- JS `parseFloat`: skip leading whitespace, optional sign, decimal numeral
with optional fraction and exponent; NaN when no digit is found. Trailing
garbage is ignored. (The `Infinity` literal is not modelled; no call site of
the source feeds it.) -/
def jsParseFloat (s : Str) : JsNum :=
  let s1 := s.dropWhile Char.isWhitespace
  let sg := readSign s1
  let ip := sg.2.takeWhile Char.isDigit
  let r1 := sg.2.dropWhile Char.isDigit
  let fpr : List Char × Str :=
    match r1 with
    | '.' :: t => (t.takeWhile Char.isDigit, t.dropWhile Char.isDigit)
    | _ => ([], r1)
  if ip.isEmpty ∧ fpr.1.isEmpty then .nan
  else
    let nd := readExp fpr.2 (natOfDigits ip * 10 ^ fpr.1.length + natOfDigits fpr.1)
      (10 ^ fpr.1.length)
    .num (Q.norm (sg.1 * nd.1) nd.2)

/-- JS `parseInt` in base 10: skip leading whitespace, optional sign, longest
digit prefix; NaN (here `none`) when no digit is found. (Radix prefixes like
`0x` are not modelled; no call site of the source feeds them.) -/
def jsParseInt (s : Str) : JsInt :=
  let s1 := s.dropWhile Char.isWhitespace
  let sg := readSign s1
  let ds := sg.2.takeWhile Char.isDigit
  if ds.isEmpty then none else some (sg.1 * natOfDigits ds)

/-- Decimal digits of a natural number (fuel-structured so the kernel can
evaluate it). -/
def natDigitsAux : Nat → Nat → Str
  | 0, _ => []
  | fuel + 1, n =>
    if n < 10 then [Nat.digitChar n]
    else natDigitsAux fuel (n / 10) ++ [Nat.digitChar (n % 10)]

/-- JS `String(n)` for an integral number. -/
def natToStr (n : Nat) : Str := natDigitsAux (n + 1) n

/-- JS template interpolation of a `parseInt` result: NaN prints as "NaN". -/
def jsIntToStr : JsInt → Str
  | none => "NaN".data
  | some (Int.ofNat n) => natToStr n
  | some (Int.negSucc n) => '-' :: natToStr (n + 1)

/-- JS `s.padStart(2, '0')`. -/
def pad2 (s : Str) : Str := List.replicate (2 - s.length) '0' ++ s


/-- Semantic column code for depth (`GEF_COLUMN_Z`). -/
def GEF_COLUMN_Z : Int := 1

/-- Semantic column code for cone resistance (`GEF_COLUMN_QC`). -/
def GEF_COLUMN_QC : Int := 2

/-- Semantic column code for sleeve friction (`GEF_COLUMN_FS`). -/
def GEF_COLUMN_FS : Int := 3

/-- Semantic column code for pore pressure (`GEF_COLUMN_U`). -/
def GEF_COLUMN_U : Int := 6

/-- Semantic column code for corrected depth (`GEF_COLUMN_Z_CORRECTED`). -/
def GEF_COLUMN_Z_CORRECTED : Int := 11

/-- The friction-ratio cap `CPT_FR_MAX = 10.0`. -/
def CPT_FR_MAX : JsNum := .num ⟨10, 1⟩

/-- Errors of the embedded parser. `typeError` stands for the JavaScript
`TypeError` raised by calling `.trim()` on `undefined` (a missing
`split` component); `headerLine` is the re-wrapping performed by the
`catch` in `parseHeaderLine`; `emptyProfile` is the fault of
`this.z[this.z.length - 1].toFixed(2)` on an empty array, which the spec
directs to treat as an explicit `EmptyProfileError`; `boreFile` is the
`CptReadError` thrown for borehole files (`WrongFileTypeError` in the
spec's taxonomy). -/
inductive GefError where
  | boreFile
  | typeError
  | headerLine (line : Str) (inner : GefError)
  | emptyProfile
deriving DecidableEq

/-- The `metadata` record built by the header scan. The two JS objects
`columnVoids` and `columnInfo` are association lists with insert-or-replace
update; their keys are `parseInt` results, so possibly NaN (`none`), which
JavaScript would store under the object key "NaN". -/
structure Metadata where
  recordSeparator : Str := []
  columnSeparator : Str := " ".data
  columnVoids : List (JsInt × JsNum) := []
  columnInfo : List (JsInt × JsInt) := []
deriving DecidableEq

/-- Insert-or-replace for a JS object used as a map. -/
def insertReplace {α β : Type} [DecidableEq α] (k : α) (v : β) :
    List (α × β) → List (α × β)
  | [] => [(k, v)]
  | (k', v') :: t => if k' = k then (k, v) :: t else (k', v') :: insertReplace k v t

/-- Lookup in a JS object used as a map; `none` is `undefined`. -/
def assocLookup {α β : Type} [DecidableEq α] (l : List (α × β)) (k : α) : Option β :=
  match l with
  | [] => none
  | (k', v') :: t => if k' = k then some v' else assocLookup t k

/-- The `Cpt` object: scalar metadata plus the five parallel sequences. -/
structure Cpt where
  x : JsNum := .num ⟨0, 1⟩
  y : JsNum := .num ⟨0, 1⟩
  top : JsNum := .num ⟨0, 1⟩
  bottom : JsNum := .num ⟨0, 1⟩
  z : List JsNum := []
  qc : List JsNum := []
  fs : List JsNum := []
  u : List JsNum := []
  fr : List JsNum := []
  name : Str := []
  filedate : Str := []
  startdate : Str := []
  filename : Str := []
  preExcavatedDepth : JsNum := .num ⟨0, 1⟩
deriving DecidableEq

/-- Model of `Cpt.parseDate`: read the first three params as integers year, month,
day. A missing param makes `.trim()` fault on `undefined`, caught by the
inner `try`, giving "". A numeric value outside the valid ranges throws,
also caught, giving "". A NaN component passes every `<` and `>` test
(JS comparisons with NaN are false) and is interpolated as the text "NaN". -/
def parseDate (params : List Str) : Str :=
  match params with
  | p0 :: p1 :: p2 :: _ =>
    let yyyy := jsParseInt (trim p0)
    let mm := jsParseInt (trim p1)
    let dd := jsParseInt (trim p2)
    if jsIntLt yyyy 1900 || jsIntGt yyyy 2100 || jsIntLt mm 1 || jsIntGt mm 12 ||
        jsIntLt dd 1 || jsIntGt dd 31 then
      []
    else
      jsIntToStr yyyy ++ pad2 (jsIntToStr mm) ++ pad2 (jsIntToStr dd)
  | _ => []

/-- The COLUMNINFO action: semantic code 11 is remapped to the depth code 1
before the (insert-or-replace) assignment `columnInfo[dtype] = column - 1`. -/
def applyColumnInfo (md : Metadata) (column dtype : JsInt) : Metadata :=
  let dtype' := if dtype = some GEF_COLUMN_Z_CORRECTED then some GEF_COLUMN_Z else dtype
  { md with columnInfo := insertReplace dtype' (jsIntSub1 column) md.columnInfo }

/-- The keyword dispatch of `Cpt.parseHeaderLine` (the `switch` statement),
over the extracted keyword and comma-split params. -/
def applyHeaderKeyword (cpt : Cpt) (md : Metadata) (keyword : Str) (params : List Str) :
    Except GefError (Cpt × Metadata) :=
  if keyword = "PROCEDURECODE".data ∨ keyword = "REPORTCODE".data then
    if containsSub (toUpperStr (params.headD [])) "BORE".data then .error .boreFile
    else .ok (cpt, md)
  else if keyword = "RECORDSEPARATOR".data then
    .ok (cpt, { md with recordSeparator := params.headD [] })
  else if keyword = "COLUMNSEPARATOR".data then
    .ok (cpt, { md with columnSeparator := params.headD [] })
  else if keyword = "COLUMNINFO".data then
    match params with
    | p0 :: _ :: _ :: p3 :: _ =>
      .ok (cpt, applyColumnInfo md (jsParseInt p0) (jsParseInt (trim p3)))
    | _ => .error .typeError
  else if keyword = "XYID".data then
    match params with
    | _ :: p1 :: p2 :: _ =>
      .ok ({ cpt with x := jsRound2 (jsParseFloat (trim p1)),
                      y := jsRound2 (jsParseFloat (trim p2)) }, md)
    | _ => .error .typeError
  else if keyword = "ZID".data then
    match params with
    | _ :: p1 :: _ => .ok ({ cpt with top := jsParseFloat (trim p1) }, md)
    | _ => .error .typeError
  else if keyword = "MEASUREMENTVAR".data then
    if params.headD [] = "13".data then
      match params with
      | _ :: p1 :: _ =>
        .ok ({ cpt with preExcavatedDepth := jsParseFloat (trim p1) }, md)
      | _ => .error .typeError
    else .ok (cpt, md)
  else if keyword = "COLUMNVOID".data then
    match params with
    | p0 :: p1 :: _ =>
      .ok (cpt, { md with
        columnVoids := insertReplace (jsIntSub1 (jsParseInt (trim p0)))
          (jsParseFloat (trim p1)) md.columnVoids })
    | _ => .error .typeError
  else if keyword = "TESTID".data then
    .ok ({ cpt with name := trim (params.headD []) }, md)
  else if keyword = "FILEDATE".data then
    .ok ({ cpt with filedate := parseDate params }, md)
  else if keyword = "STARTDATE".data then
    .ok ({ cpt with startdate := parseDate params }, md)
  else
    .ok (cpt, md)

/-- Model of `Cpt.parseHeaderLine` before its `catch`: split on "=", strip the first
"#" from the trimmed keyword, split the trimmed argument on "," and dispatch
on the keyword via `applyHeaderKeyword`. Accessing a missing `split`
component faults (`typeError`). -/
def parseHeaderLineCore (cpt : Cpt) (md : Metadata) (line : Str) :
    Except GefError (Cpt × Metadata) :=
  match splitOn "=".data line with
  | [] => .error .typeError
  | a0 :: rest0 =>
    match rest0 with
    | [] => .error .typeError
    | a1 :: _ =>
      applyHeaderKeyword cpt md (replaceFirst "#".data (trim a0)) (splitOn ",".data (trim a1))

/-- Model of `Cpt.parseHeaderLine`: the surrounding `catch` re-wraps any error with
the offending line. -/
def parseHeaderLine (cpt : Cpt) (md : Metadata) (line : Str) :
    Except GefError (Cpt × Metadata) :=
  match parseHeaderLineCore cpt md line with
  | .error e => .error (.headerLine line e)
  | .ok r => .ok r

/-- Token list of a data row: strip the record separator (first occurrence),
trim, split on the column separator, drop blank tokens, parse floats. -/
def rowArgs (md : Metadata) (line : Str) : List JsNum :=
  ((splitOn md.columnSeparator (trim (replaceFirst md.recordSeparator line))).filter
    (fun a => !(trim a).isEmpty)).map (fun a => jsParseFloat (trim a))

/-- Does some registered void column match its sentinel in this row? NaN
sentinels and NaN/`undefined` cells never match (`===` with NaN is false). -/
def rowIsVoid (md : Metadata) (args : List JsNum) : Bool :=
  md.columnVoids.any (fun kv => jsEq (jsIndex args kv.1) kv.2)

/-- The depth value pushed for a row: `top - abs(args[zColumn])`. -/
def rowDz (top : JsNum) (md : Metadata) (args : List JsNum) : JsNum :=
  jsSub top (jsAbs (jsIndexO args (assocLookup md.columnInfo (some GEF_COLUMN_Z))))

/-- The cone-resistance value pushed for a row: clamp non-positive values to
`1e-3`; NaN (missing or non-numeric cell) is not `<= 0`, so it stays NaN. -/
def rowQc (md : Metadata) (args : List JsNum) : JsNum :=
  let qc := jsIndexO args (assocLookup md.columnInfo (some GEF_COLUMN_QC))
  if jsLe qc (.num ⟨0, 1⟩) then .num ⟨1, 1000⟩ else qc

/-- The sleeve-friction value pushed for a row: clamp non-positive values to
`1e-6`. -/
def rowFs (md : Metadata) (args : List JsNum) : JsNum :=
  let fs := jsIndexO args (assocLookup md.columnInfo (some GEF_COLUMN_FS))
  if jsLe fs (.num ⟨0, 1⟩) then .num ⟨1, 1000000⟩ else fs

/-- The pore-pressure column index after `metadata.columnInfo[GEF_COLUMN_U]
|| -1`: an absent key (`undefined`), a NaN value and the index 0 are all
falsy in JavaScript and collapse to -1. -/
def uColumnOf (md : Metadata) : Int :=
  match assocLookup md.columnInfo (some GEF_COLUMN_U) with
  | some (some k) => if k = 0 then -1 else k
  | _ => -1

/-- The pore-pressure value pushed for a row. -/
def rowU (md : Metadata) (args : List JsNum) : JsNum :=
  let uColumn := uColumnOf md
  if -1 < uColumn then jsIndex args (some uColumn) else .num ⟨0, 1⟩

/-- Model of `Cpt.parseDataLine`: skip blank lines, drop rows matching a void
sentinel, otherwise push depth, clamped cone resistance, clamped sleeve
friction and pore pressure. Nothing in the body can throw in JavaScript
(out-of-range indexing yields `undefined`, `parseFloat` yields NaN), so the
function is total and returns the updated `Cpt`. -/
def parseDataLine (cpt : Cpt) (md : Metadata) (line : Str) : Cpt :=
  if (trim line).isEmpty then cpt
  else if rowIsVoid md (rowArgs md line) then cpt
  else
    { cpt with
      z := cpt.z ++ [rowDz cpt.top md (rowArgs md line)],
      qc := cpt.qc ++ [rowQc md (rowArgs md line)],
      fs := cpt.fs ++ [rowFs md (rowArgs md line)],
      u := cpt.u ++ [rowU md (rowArgs md line)] }

/-- The friction-ratio pass of `postProcess`: for each index `i` below
`qc.length`, push `CPT_FR_MAX` when `qc[i] === 0.0` and
`(fs[i] / qc[i]) * 100.0` otherwise. -/
def computeFr : List JsNum → List JsNum → List JsNum
  | [], _ => []
  | q :: qt, fsList =>
    (if jsEq q (.num ⟨0, 1⟩) then CPT_FR_MAX
     else jsMul (jsDiv (fsList.headD .nan) q) (.num ⟨100, 1⟩)) :: computeFr qt fsList.tail

/-- Result of the row filter of `postProcess`. -/
structure Rows where
  z : List JsNum
  qc : List JsNum
  fs : List JsNum
  fr : List JsNum
  u : List JsNum
deriving DecidableEq

/-- NaN-to-zero replacement applied to surviving rows. -/
def denan (v : JsNum) : JsNum := if v.isNaN then .num ⟨0, 1⟩ else v

/-- The filtering loop of `postProcess`: drop rows whose depth is NaN; in a
surviving row replace NaN cone resistance, sleeve friction, friction ratio
and pore pressure by 0. -/
def filterRows : List JsNum → List JsNum → List JsNum → List JsNum → List JsNum → Rows
  | [], _, _, _, _ => ⟨[], [], [], [], []⟩
  | z0 :: zt, qcs, fss, frs, us =>
    let rest := filterRows zt qcs.tail fss.tail frs.tail us.tail
    if z0.isNaN then rest
    else
      ⟨z0 :: rest.z, denan (qcs.headD .nan) :: rest.qc, denan (fss.headD .nan) :: rest.fs,
        denan (frs.headD .nan) :: rest.fr, denan (us.headD .nan) :: rest.u⟩

/-- Model of `Cpt.postProcess`: compute friction ratios, filter NaN-depth rows,
reassign the five sequences, round the top and set the bottom to the last
surviving depth rounded to two decimals. On an empty surviving sequence the
source faults reading `this.z[this.z.length - 1]`; per the spec this is the
explicit `EmptyProfileError`. The filtered rows are factored out as
`ppRows`. -/
def ppRows (cpt : Cpt) : Rows :=
  filterRows cpt.z cpt.qc cpt.fs (computeFr cpt.qc cpt.fs) cpt.u

/-- See the comment on `ppRows`: this is the rest of `Cpt.postProcess`. -/
def postProcess (cpt : Cpt) : Except GefError Cpt :=
  match (ppRows cpt).z.getLast? with
  | none => .error .emptyProfile
  | some zLast =>
    .ok { cpt with
      z := (ppRows cpt).z
      qc := (ppRows cpt).qc
      fs := (ppRows cpt).fs
      fr := (ppRows cpt).fr
      u := (ppRows cpt).u
      top := jsRound2 cpt.top
      bottom := jsRound2 zLast }

/-- The data phase of `readGef`: every line after the end-of-header marker
goes through `parseDataLine`. -/
def ingestData (md : Metadata) : Cpt → List Str → Cpt
  | cpt, [] => cpt
  | cpt, l :: ls => ingestData md (parseDataLine cpt md l) ls

/-- The line loop of `readGef`: while reading the header, a line containing
"#EOH" switches to the data phase (the marker line itself is not parsed);
any other line is header-parsed, and a header error aborts everything. After
the loop, `postProcess` runs. -/
def readGefLines : List Str → Metadata → Cpt → Except GefError Cpt
  | [], _, cpt => postProcess cpt
  | l :: ls, md, cpt =>
    if containsSub l "#EOH".data then postProcess (ingestData md cpt ls)
    else
      match parseHeaderLine cpt md l with
      | .error e => .error e
      | .ok r => readGefLines ls r.2 r.1

/-- Model of `Cpt.readGef`: split the input on newlines and run the line loop from a
fresh `Cpt` and the default metadata. -/
def readGef (data : Str) : Except GefError Cpt :=
  readGefLines (splitOn "\n".data data) {} {}

deriving instance DecidableEq for Except

/-- Did the parse succeed? -/
def resOk : Except GefError Cpt → Bool
  | .ok _ => true
  | .error _ => false

/-- The cone-resistance sequence of a parse result. -/
def resQc : Except GefError Cpt → List JsNum
  | .ok c => c.qc
  | .error _ => []

/-- The sleeve-friction sequence of a parse result. -/
def resFs : Except GefError Cpt → List JsNum
  | .ok c => c.fs
  | .error _ => []

/-- The pore-pressure sequence of a parse result. -/
def resU : Except GefError Cpt → List JsNum
  | .ok c => c.u
  | .error _ => []

/-- The depth-sequence length of a parse result. -/
def resZlen : Except GefError Cpt → Nat
  | .ok c => c.z.length
  | .error _ => 0


/-- The `Cpt` of a successful result (a fresh `Cpt` otherwise). -/
def resCpt : Except GefError Cpt → Cpt
  | .ok c => c
  | .error _ => {}

/-- JS `v > 0` fails, `v ≥ 0` holds: nonnegative number (false for NaN). -/
def jsNonneg : JsNum → Bool
  | .nan => false
  | .num a => (Q.ofInt 0).ble a

/-- Invariant of the raw ingested `qc`/`fs` entries: NaN or strictly
positive. -/
def nanOrPos (v : JsNum) : Bool := v.isNaN || jsGtZero v

/-- A data line that is actually ingested: non-blank and not matched by a
void sentinel. -/
def keptRow (md : Metadata) (l : Str) : Bool :=
  !(trim l).isEmpty && !rowIsVoid md (rowArgs md l)

/-- Number of non-blank lines in the data section (the input data rows). -/
def dataRowCount (ls : List Str) : Nat :=
  (ls.filter (fun l => !(trim l).isEmpty)).length

/-- Number of data rows dropped by a void-sentinel match. -/
def voidRowCount (md : Metadata) (ls : List Str) : Nat :=
  (ls.filter (fun l => !(trim l).isEmpty && rowIsVoid md (rowArgs md l))).length

/-- Number of ingested data rows whose computed depth is NaN (dropped by the
post-processing filter). -/
def nanDepthRowCount (top : JsNum) (md : Metadata) (ls : List Str) : Nat :=
  (ls.filter (fun l => keptRow md l && (rowDz top md (rowArgs md l)).isNaN)).length

/-- Number of non-NaN entries of a sequence. -/
def countNonNan (l : List JsNum) : Nat := (l.filter (fun v => !v.isNaN)).length

/-- The header phase as a standalone fold (what `readGefLines` does to lines
that neither contain "#EOH" nor error). -/
def foldHeader : List Str → Metadata → Cpt → Except GefError (Cpt × Metadata)
  | [], md, cpt => .ok (cpt, md)
  | l :: ls, md, cpt =>
    match parseHeaderLine cpt md l with
    | .error e => .error e
    | .ok r => foldHeader ls r.2 r.1

/-- A GEF file whose data row has a non-numeric cone-resistance token: the
row survives (its depth is fine) and the NaN resistance becomes 0.0. -/
def c1File : Str :=
  ("#COLUMNINFO=1,m,depth,1\n#COLUMNINFO=2,MPa,qc,2\n#COLUMNINFO=3,MPa,fs,3\n" ++
   "#EOH\n1.0 abc 0.5").data

/-- A GEF file exercising both ingestion clamps: negative cone resistance
and zero sleeve friction. -/
def c1ClampFile : Str :=
  ("#COLUMNINFO=1,m,depth,1\n#COLUMNINFO=2,MPa,qc,2\n#COLUMNINFO=3,MPa,fs,3\n" ++
   "#EOH\n1.0 -2.0 0.0").data

/-- A GEF file whose header maps cone resistance to column index 5, out of
range for its three-token data row. -/
def c2File : Str :=
  ("#COLUMNINFO=1,m,depth,1\n#COLUMNINFO=6,MPa,qc,2\n#COLUMNINFO=3,MPa,fs,3\n" ++
   "#EOH\n1.0 2.0 0.5").data

/-- A GEF file declaring the pore-pressure column (semantic code 6) at
1-based column 1, i.e. zero-based index 0, with raw value 0.5 in the row. -/
def c4File : Str :=
  ("#COLUMNINFO=1,kPa,u,6\n#COLUMNINFO=2,m,depth,1\n#COLUMNINFO=3,MPa,qc,2\n" ++
   "#COLUMNINFO=4,MPa,fs,3\n#EOH\n0.5 1.0 2.0 3.0").data

/-- The metadata produced by the header of `c4File`. -/
def c4Md : Metadata :=
  { columnInfo := [(some 6, some 0), (some 1, some 1), (some 2, some 2), (some 3, some 3)] }

/-- Metadata with a void sentinel -9999 on column index 1 and the usual
depth/resistance/friction mapping. -/
def c5Md : Metadata :=
  { columnVoids := [(some 1, .num ⟨-9999, 1⟩)],
    columnInfo := [(some 1, some 0), (some 2, some 1), (some 3, some 2)] }

/-- Data lines with one blank line, one void-matched row, one NaN-depth row
and two surviving rows. -/
def c5Lines : List Str :=
  ["1.0 2.0 0.1".data, "".data, "2.0 -9999 0.1".data, "xx 1.0 0.1".data, "3.0 4.0 0.2".data]

/-- A GEF file whose every data row has NaN depth. -/
def c3File : Str :=
  ("#COLUMNINFO=1,m,depth,1\n#COLUMNINFO=2,MPa,qc,2\n#COLUMNINFO=3,MPa,fs,3\n" ++
   "#EOH\nxx 1.0 0.1").data

/-- A GEF file with a whitespace-only line inside the header section. -/
def c10HeaderFile : Str := ("#TESTID=x\n \n#EOH\n1.0 2.0 3.0").data

/-- A GEF file with a blank line inside the data section. -/
def c10DataFile : Str :=
  ("#COLUMNINFO=1,m,depth,1\n#COLUMNINFO=2,MPa,qc,2\n#COLUMNINFO=3,MPa,fs,3\n" ++
   "#EOH\n1.0 2.0 0.1\n\n2.0 3.0 0.2").data

theorem jsLe_zero_false (v : JsNum) (h : jsLe v (.num ⟨0, 1⟩) = false) :
    nanOrPos v = true := by
  cases v with
  | nan => rfl
  | num a =>
    simp [jsLe, Q.ble] at h
    simp [nanOrPos, JsNum.isNaN, jsGtZero, Q.blt, Q.ofInt]
    omega

theorem clamp_nanOrPos (v clampV : JsNum) (hc : nanOrPos clampV = true) :
    nanOrPos (if jsLe v (.num ⟨0, 1⟩) = true then clampV else v) = true := by
  split
  · exact hc
  · next h => exact jsLe_zero_false _ (by simpa using h)

theorem rowQc_nanOrPos (md : Metadata) (args : List JsNum) :
    nanOrPos (rowQc md args) = true :=
  clamp_nanOrPos _ _ (by decide)

theorem rowFs_nanOrPos (md : Metadata) (args : List JsNum) :
    nanOrPos (rowFs md args) = true :=
  clamp_nanOrPos _ _ (by decide)

theorem denan_nonneg (v : JsNum) (h : nanOrPos v = true) : jsNonneg (denan v) = true := by
  cases v with
  | nan => decide
  | num a =>
    simp [nanOrPos, JsNum.isNaN, jsGtZero, Q.blt, Q.ofInt] at h
    simp [denan, JsNum.isNaN, jsNonneg, Q.ble, Q.ofInt]
    omega

theorem filterRows_lengths (z : List JsNum) : ∀ qcs fss frs us : List JsNum,
    (filterRows z qcs fss frs us).z.length = countNonNan z ∧
    (filterRows z qcs fss frs us).qc.length = countNonNan z ∧
    (filterRows z qcs fss frs us).fs.length = countNonNan z ∧
    (filterRows z qcs fss frs us).fr.length = countNonNan z ∧
    (filterRows z qcs fss frs us).u.length = countNonNan z := by
  induction z with
  | nil => intro qcs fss frs us; simp [filterRows, countNonNan]
  | cons z0 zt ih =>
    intro qcs fss frs us
    have h := ih qcs.tail fss.tail frs.tail us.tail
    by_cases hz : z0.isNaN = true
    · simpa [filterRows, hz, countNonNan, List.filter_cons] using h
    · simp only [Bool.not_eq_true] at hz
      simpa [filterRows, hz, countNonNan, List.filter_cons] using h

theorem filterRows_qc_mem (z : List JsNum) : ∀ qcs fss frs us : List JsNum,
    ∀ v ∈ (filterRows z qcs fss frs us).qc, v = .num ⟨0, 1⟩ ∨ ∃ w ∈ qcs, v = denan w := by
  induction z with
  | nil => intro qcs fss frs us v hv; simp [filterRows] at hv
  | cons z0 zt ih =>
    intro qcs fss frs us v hv
    by_cases hz : z0.isNaN = true
    · simp only [filterRows, hz, if_true] at hv
      rcases ih qcs.tail fss.tail frs.tail us.tail v hv with h | ⟨w, hw, he⟩
      · exact Or.inl h
      · exact Or.inr ⟨w, List.mem_of_mem_tail hw, he⟩
    · simp only [Bool.not_eq_true] at hz
      simp only [filterRows, hz, Bool.false_eq_true, if_false, List.mem_cons] at hv
      rcases hv with he | hv
      · cases qcs with
        | nil => exact Or.inl (by simpa [denan] using he)
        | cons w wt => exact Or.inr ⟨w, List.mem_cons_self w wt, by simpa using he⟩
      · rcases ih qcs.tail fss.tail frs.tail us.tail v hv with h | ⟨w, hw, he⟩
        · exact Or.inl h
        · exact Or.inr ⟨w, List.mem_of_mem_tail hw, he⟩

theorem filterRows_fs_mem (z : List JsNum) : ∀ qcs fss frs us : List JsNum,
    ∀ v ∈ (filterRows z qcs fss frs us).fs, v = .num ⟨0, 1⟩ ∨ ∃ w ∈ fss, v = denan w := by
  induction z with
  | nil => intro qcs fss frs us v hv; simp [filterRows] at hv
  | cons z0 zt ih =>
    intro qcs fss frs us v hv
    by_cases hz : z0.isNaN = true
    · simp only [filterRows, hz, if_true] at hv
      rcases ih qcs.tail fss.tail frs.tail us.tail v hv with h | ⟨w, hw, he⟩
      · exact Or.inl h
      · exact Or.inr ⟨w, List.mem_of_mem_tail hw, he⟩
    · simp only [Bool.not_eq_true] at hz
      simp only [filterRows, hz, Bool.false_eq_true, if_false, List.mem_cons] at hv
      rcases hv with he | hv
      · cases fss with
        | nil => exact Or.inl (by simpa [denan] using he)
        | cons w wt => exact Or.inr ⟨w, List.mem_cons_self w wt, by simpa using he⟩
      · rcases ih qcs.tail fss.tail frs.tail us.tail v hv with h | ⟨w, hw, he⟩
        · exact Or.inl h
        · exact Or.inr ⟨w, List.mem_of_mem_tail hw, he⟩

theorem filterRows_z_nil (z : List JsNum) : ∀ qcs fss frs us : List JsNum,
    (∀ v ∈ z, v.isNaN = true) → (filterRows z qcs fss frs us).z = [] := by
  induction z with
  | nil => intro qcs fss frs us _; rfl
  | cons z0 zt ih =>
    intro qcs fss frs us h
    have h0 := h z0 (List.mem_cons_self z0 zt)
    simp only [filterRows, h0, if_true]
    exact ih _ _ _ _ (fun v hv => h v (List.mem_cons_of_mem z0 hv))

theorem postProcess_ok_fields (cpt out : Cpt) (h : postProcess cpt = .ok out) :
    out.z = (ppRows cpt).z ∧ out.qc = (ppRows cpt).qc ∧ out.fs = (ppRows cpt).fs ∧
    out.fr = (ppRows cpt).fr ∧ out.u = (ppRows cpt).u ∧ out.z ≠ [] := by
  unfold postProcess at h
  split at h
  · exact absurd h (by simp)
  · next zLast heq =>
    simp only [Except.ok.injEq] at h
    subst h
    refine ⟨rfl, rfl, rfl, rfl, rfl, ?_⟩
    intro hnil
    have hz : (ppRows cpt).z = [] := hnil
    rw [hz] at heq
    simp at heq

theorem postProcess_error_of_allNaN (cpt : Cpt) (h : ∀ v ∈ cpt.z, v.isNaN = true) :
    postProcess cpt = .error .emptyProfile := by
  have hz : (ppRows cpt).z = [] :=
    filterRows_z_nil cpt.z cpt.qc cpt.fs (computeFr cpt.qc cpt.fs) cpt.u h
  unfold postProcess
  split
  · rfl
  · next zLast heq => rw [hz] at heq; simp at heq

theorem postProcess_nonneg (cpt out : Cpt) (h : postProcess cpt = .ok out)
    (hqc : ∀ v ∈ cpt.qc, nanOrPos v = true) (hfs : ∀ v ∈ cpt.fs, nanOrPos v = true) :
    (∀ v ∈ out.qc, jsNonneg v = true) ∧ (∀ v ∈ out.fs, jsNonneg v = true) := by
  obtain ⟨-, hq, hf, -, -, -⟩ := postProcess_ok_fields cpt out h
  constructor
  · intro v hv
    rw [hq] at hv
    rcases filterRows_qc_mem cpt.z cpt.qc cpt.fs (computeFr cpt.qc cpt.fs) cpt.u v hv with
      he | ⟨w, hw, he⟩
    · subst he; decide
    · subst he; exact denan_nonneg w (hqc w hw)
  · intro v hv
    rw [hf] at hv
    rcases filterRows_fs_mem cpt.z cpt.qc cpt.fs (computeFr cpt.qc cpt.fs) cpt.u v hv with
      he | ⟨w, hw, he⟩
    · subst he; decide
    · subst he; exact denan_nonneg w (hfs w hw)

theorem parseDataLine_blank (cpt : Cpt) (md : Metadata) (l : Str)
    (h : (trim l).isEmpty = true) : parseDataLine cpt md l = cpt := by
  simp [parseDataLine, h]

theorem parseDataLine_void (cpt : Cpt) (md : Metadata) (l : Str)
    (hb : (trim l).isEmpty = false) (hv : rowIsVoid md (rowArgs md l) = true) :
    parseDataLine cpt md l = cpt := by
  simp [parseDataLine, hb, hv]

theorem parseDataLine_push (cpt : Cpt) (md : Metadata) (l : Str)
    (hb : (trim l).isEmpty = false) (hv : rowIsVoid md (rowArgs md l) = false) :
    parseDataLine cpt md l =
      { cpt with
        z := cpt.z ++ [rowDz cpt.top md (rowArgs md l)],
        qc := cpt.qc ++ [rowQc md (rowArgs md l)],
        fs := cpt.fs ++ [rowFs md (rowArgs md l)],
        u := cpt.u ++ [rowU md (rowArgs md l)] } := by
  simp [parseDataLine, hb, hv]

theorem parseDataLine_top (cpt : Cpt) (md : Metadata) (l : Str) :
    (parseDataLine cpt md l).top = cpt.top := by
  unfold parseDataLine
  split
  · rfl
  · split
    · rfl
    · rfl

theorem ingestData_z (md : Metadata) (ls : List Str) : ∀ cpt : Cpt,
    (ingestData md cpt ls).z =
      cpt.z ++ (ls.filter (keptRow md)).map (fun l => rowDz cpt.top md (rowArgs md l)) ∧
    (ingestData md cpt ls).top = cpt.top := by
  induction ls with
  | nil => intro cpt; simp [ingestData]
  | cons l ls ih =>
    intro cpt
    by_cases hb : (trim l).isEmpty = true
    · have hk : keptRow md l = false := by simp [keptRow, hb]
      simpa [ingestData, parseDataLine_blank cpt md l hb, List.filter_cons, hk] using ih cpt
    · simp only [Bool.not_eq_true] at hb
      by_cases hv : rowIsVoid md (rowArgs md l) = true
      · have hk : keptRow md l = false := by simp [keptRow, hv]
        simpa [ingestData, parseDataLine_void cpt md l hb hv, List.filter_cons, hk] using ih cpt
      · simp only [Bool.not_eq_true] at hv
        have hk : keptRow md l = true := by simp [keptRow, hb, hv]
        have hstep := parseDataLine_push cpt md l hb hv
        have := ih (parseDataLine cpt md l)
        rw [hstep] at this
        simp only [ingestData, List.filter_cons, hk, if_true]
        rw [hstep]
        constructor
        · rw [this.1]; simp
        · exact this.2

theorem parseDataLine_inv (cpt : Cpt) (md : Metadata) (l : Str)
    (hqc : ∀ v ∈ cpt.qc, nanOrPos v = true) (hfs : ∀ v ∈ cpt.fs, nanOrPos v = true) :
    (∀ v ∈ (parseDataLine cpt md l).qc, nanOrPos v = true) ∧
    (∀ v ∈ (parseDataLine cpt md l).fs, nanOrPos v = true) := by
  by_cases hb : (trim l).isEmpty = true
  · rw [parseDataLine_blank cpt md l hb]; exact ⟨hqc, hfs⟩
  · simp only [Bool.not_eq_true] at hb
    by_cases hv : rowIsVoid md (rowArgs md l) = true
    · rw [parseDataLine_void cpt md l hb hv]; exact ⟨hqc, hfs⟩
    · simp only [Bool.not_eq_true] at hv
      rw [parseDataLine_push cpt md l hb hv]
      constructor
      · intro v hv'
        simp only [List.mem_append, List.mem_singleton] at hv'
        rcases hv' with h | h
        · exact hqc v h
        · subst h; exact rowQc_nanOrPos md (rowArgs md l)
      · intro v hv'
        simp only [List.mem_append, List.mem_singleton] at hv'
        rcases hv' with h | h
        · exact hfs v h
        · subst h; exact rowFs_nanOrPos md (rowArgs md l)

theorem ingestData_inv (md : Metadata) (ls : List Str) : ∀ cpt : Cpt,
    (∀ v ∈ cpt.qc, nanOrPos v = true) → (∀ v ∈ cpt.fs, nanOrPos v = true) →
    (∀ v ∈ (ingestData md cpt ls).qc, nanOrPos v = true) ∧
    (∀ v ∈ (ingestData md cpt ls).fs, nanOrPos v = true) := by
  induction ls with
  | nil => intro cpt hqc hfs; exact ⟨hqc, hfs⟩
  | cons l ls ih =>
    intro cpt hqc hfs
    have hstep := parseDataLine_inv cpt md l hqc hfs
    exact ih (parseDataLine cpt md l) hstep.1 hstep.2

theorem applyHeaderKeyword_lists (cpt : Cpt) (md : Metadata) (kw : Str) (ps : List Str)
    (r : Cpt × Metadata) (h : applyHeaderKeyword cpt md kw ps = .ok r) :
    r.1.z = cpt.z ∧ r.1.qc = cpt.qc ∧ r.1.fs = cpt.fs ∧ r.1.u = cpt.u ∧ r.1.fr = cpt.fr := by
  unfold applyHeaderKeyword at h
  by_cases h1 : kw = "PROCEDURECODE".data ∨ kw = "REPORTCODE".data
  · rw [if_pos h1] at h
    by_cases h1b : containsSub (toUpperStr (ps.headD [])) "BORE".data = true
    · rw [if_pos h1b] at h; exact Except.noConfusion h
    · rw [if_neg h1b] at h; injection h with h'; subst h'; exact ⟨rfl, rfl, rfl, rfl, rfl⟩
  rw [if_neg h1] at h
  by_cases h2 : kw = "RECORDSEPARATOR".data
  · rw [if_pos h2] at h; injection h with h'; subst h'; exact ⟨rfl, rfl, rfl, rfl, rfl⟩
  rw [if_neg h2] at h
  by_cases h3 : kw = "COLUMNSEPARATOR".data
  · rw [if_pos h3] at h; injection h with h'; subst h'; exact ⟨rfl, rfl, rfl, rfl, rfl⟩
  rw [if_neg h3] at h
  by_cases h4 : kw = "COLUMNINFO".data
  · rw [if_pos h4] at h
    rcases ps with _ | ⟨p0, _ | ⟨q1, _ | ⟨q2, _ | ⟨p3, ptail⟩⟩⟩⟩
    · exact Except.noConfusion h
    · exact Except.noConfusion h
    · exact Except.noConfusion h
    · exact Except.noConfusion h
    · injection h with h'; subst h'; exact ⟨rfl, rfl, rfl, rfl, rfl⟩
  rw [if_neg h4] at h
  by_cases h5 : kw = "XYID".data
  · rw [if_pos h5] at h
    rcases ps with _ | ⟨p0, _ | ⟨q1, _ | ⟨q2, ptail⟩⟩⟩
    · exact Except.noConfusion h
    · exact Except.noConfusion h
    · exact Except.noConfusion h
    · injection h with h'; subst h'; exact ⟨rfl, rfl, rfl, rfl, rfl⟩
  rw [if_neg h5] at h
  by_cases h6 : kw = "ZID".data
  · rw [if_pos h6] at h
    rcases ps with _ | ⟨p0, _ | ⟨q1, ptail⟩⟩
    · exact Except.noConfusion h
    · exact Except.noConfusion h
    · injection h with h'; subst h'; exact ⟨rfl, rfl, rfl, rfl, rfl⟩
  rw [if_neg h6] at h
  by_cases h7 : kw = "MEASUREMENTVAR".data
  · rw [if_pos h7] at h
    by_cases h7b : ps.headD [] = "13".data
    · rw [if_pos h7b] at h
      rcases ps with _ | ⟨p0, _ | ⟨q1, ptail⟩⟩
      · exact Except.noConfusion h
      · exact Except.noConfusion h
      · injection h with h'; subst h'; exact ⟨rfl, rfl, rfl, rfl, rfl⟩
    · rw [if_neg h7b] at h; injection h with h'; subst h'; exact ⟨rfl, rfl, rfl, rfl, rfl⟩
  rw [if_neg h7] at h
  by_cases h8 : kw = "COLUMNVOID".data
  · rw [if_pos h8] at h
    rcases ps with _ | ⟨p0, _ | ⟨q1, ptail⟩⟩
    · exact Except.noConfusion h
    · exact Except.noConfusion h
    · injection h with h'; subst h'; exact ⟨rfl, rfl, rfl, rfl, rfl⟩
  rw [if_neg h8] at h
  by_cases h9 : kw = "TESTID".data
  · rw [if_pos h9] at h; injection h with h'; subst h'; exact ⟨rfl, rfl, rfl, rfl, rfl⟩
  rw [if_neg h9] at h
  by_cases h10 : kw = "FILEDATE".data
  · rw [if_pos h10] at h; injection h with h'; subst h'; exact ⟨rfl, rfl, rfl, rfl, rfl⟩
  rw [if_neg h10] at h
  by_cases h11 : kw = "STARTDATE".data
  · rw [if_pos h11] at h; injection h with h'; subst h'; exact ⟨rfl, rfl, rfl, rfl, rfl⟩
  rw [if_neg h11] at h
  injection h with h'; subst h'; exact ⟨rfl, rfl, rfl, rfl, rfl⟩

theorem parseHeaderLineCore_lists (cpt : Cpt) (md : Metadata) (l : Str)
    (r : Cpt × Metadata) (h : parseHeaderLineCore cpt md l = .ok r) :
    r.1.z = cpt.z ∧ r.1.qc = cpt.qc ∧ r.1.fs = cpt.fs ∧ r.1.u = cpt.u ∧ r.1.fr = cpt.fr := by
  unfold parseHeaderLineCore at h
  rcases hs : splitOn "=".data l with _ | ⟨a0, _ | ⟨a1, rest⟩⟩ <;> rw [hs] at h
  · exact Except.noConfusion h
  · exact Except.noConfusion h
  · exact applyHeaderKeyword_lists _ _ _ _ _ h

theorem parseHeaderLine_lists (cpt : Cpt) (md : Metadata) (l : Str)
    (r : Cpt × Metadata) (h : parseHeaderLine cpt md l = .ok r) :
    r.1.z = cpt.z ∧ r.1.qc = cpt.qc ∧ r.1.fs = cpt.fs ∧ r.1.u = cpt.u ∧ r.1.fr = cpt.fr := by
  unfold parseHeaderLine at h
  split at h
  · cases h
  · next heq => cases h; exact parseHeaderLineCore_lists cpt md l _ heq

theorem readGefLines_nonneg (ls : List Str) : ∀ (md : Metadata) (cpt : Cpt) (out : Cpt),
    (∀ v ∈ cpt.qc, nanOrPos v = true) → (∀ v ∈ cpt.fs, nanOrPos v = true) →
    readGefLines ls md cpt = .ok out →
    (∀ v ∈ out.qc, jsNonneg v = true) ∧ (∀ v ∈ out.fs, jsNonneg v = true) := by
  induction ls with
  | nil => intro md cpt out hq hf h; exact postProcess_nonneg cpt out h hq hf
  | cons l ls ih =>
    intro md cpt out hq hf h
    unfold readGefLines at h
    split at h
    · have hi := ingestData_inv md ls cpt hq hf
      exact postProcess_nonneg _ out h hi.1 hi.2
    · cases hh : parseHeaderLine cpt md l with
      | error e => rw [hh] at h; exact Except.noConfusion h
      | ok r =>
        rw [hh] at h
        obtain ⟨-, hqc, hfs, -, -⟩ := parseHeaderLine_lists cpt md l r hh
        exact ih r.2 r.1 out (hqc ▸ hq) (hfs ▸ hf) h

/-- Claim C1 counterexample: `c1File` is accepted by the parse, yet its
cone-resistance sequence contains 0.0 (the non-numeric token parsed to NaN,
which is not clamped — NaN is not `<= 0` — and is replaced by 0.0 for the
surviving row in `postProcess`), so not every element is strictly positive. -/
theorem c1_qc_positive_counterexample :
    resOk (readGef c1File) = true ∧
    (resQc (readGef c1File)).all jsGtZero = false ∧
    resQc (readGef c1File) = [JsNum.num ⟨0, 1⟩] := by decide

/-- Claim C1 (amended): for every accepted GEF input, every element of the
returned `coneResistance` and `sleeveFriction` sequences is a nonnegative
number — strictly positive when the raw cell was numeric (the ingestion
clamps enforce this), and exactly 0.0 when the raw cell was NaN
(missing or non-numeric); never NaN and never negative. -/
theorem c1_qc_fs_nonneg (data : Str) (out : Cpt) (h : readGef data = .ok out) :
    (∀ v ∈ out.qc, jsNonneg v = true) ∧ (∀ v ∈ out.fs, jsNonneg v = true) := by
  refine readGefLines_nonneg _ _ _ _ ?_ ?_ h
  · intro v hv; exact absurd hv (by simp [Cpt])
  · intro v hv; exact absurd hv (by simp [Cpt])

theorem c1_qc_fs_nonneg_witness :
    (∀ v ∈ (resCpt (readGef c1ClampFile)).qc, jsNonneg v = true) ∧
    (∀ v ∈ (resCpt (readGef c1ClampFile)).fs, jsNonneg v = true) :=
  c1_qc_fs_nonneg c1ClampFile (resCpt (readGef c1ClampFile)) (by decide)

/-- Claim C3: if every ingested depth is NaN (in particular for a file whose
every data row has NaN depth, such as `c3File`), `postProcess` fails with
`EmptyProfileError` instead of returning a zero-length profile; a successful
`postProcess` always returns a nonempty depth sequence. -/
theorem c3_empty_profile_error (cpt : Cpt) :
    ((∀ v ∈ cpt.z, v.isNaN = true) → postProcess cpt = .error .emptyProfile) ∧
    (∀ out, postProcess cpt = .ok out → out.z ≠ []) ∧
    readGef c3File = .error .emptyProfile := by
  refine ⟨postProcess_error_of_allNaN cpt, ?_, by decide⟩
  intro out h
  exact (postProcess_ok_fields cpt out h).2.2.2.2.2

theorem c3_empty_profile_error_witness :
    postProcess { z := [JsNum.nan] } = .error .emptyProfile ∧
    readGef c3File = .error .emptyProfile :=
  ⟨(c3_empty_profile_error { z := [JsNum.nan] }).1 (by decide),
   (c3_empty_profile_error {}).2.2⟩

/-- Claim C2 counterexample: in `c2File` the header maps cone resistance to
zero-based column 5, out of range for the three-token data row, yet the parse
succeeds (no `DataLineError`) and the row is ingested. -/
theorem c2_missing_column_counterexample :
    resOk (readGef c2File) = true ∧ resZlen (readGef c2File) = 1 ∧
    resQc (readGef c2File) = [JsNum.num ⟨0, 1⟩] := by decide

/-- Claim C2 (amended): `parseDataLine` can never fail — nothing in its
JavaScript body throws. A non-blank row that no void sentinel matches is
always ingested (all four raw sequences grow by one), regardless of whether
the mapped column indexes exist in the row or the tokens are numeric; a
missing or non-numeric required cell is ingested as NaN, and such a row is
dropped later only if its depth is NaN. -/
theorem c2_row_ingested_never_error (cpt : Cpt) (md : Metadata) (l : Str)
    (hb : (trim l).isEmpty = false) (hv : rowIsVoid md (rowArgs md l) = false) :
    (parseDataLine cpt md l).z.length = cpt.z.length + 1 ∧
    (parseDataLine cpt md l).qc.length = cpt.qc.length + 1 ∧
    (parseDataLine cpt md l).fs.length = cpt.fs.length + 1 ∧
    (parseDataLine cpt md l).u.length = cpt.u.length + 1 := by
  rw [parseDataLine_push cpt md l hb hv]
  simp

theorem c2_row_ingested_never_error_witness :
    (parseDataLine {} {} "1.0 2.0".data).z.length = ({} : Cpt).z.length + 1 ∧
    (parseDataLine {} {} "1.0 2.0".data).qc.length = ({} : Cpt).qc.length + 1 ∧
    (parseDataLine {} {} "1.0 2.0".data).fs.length = ({} : Cpt).fs.length + 1 ∧
    (parseDataLine {} {} "1.0 2.0".data).u.length = ({} : Cpt).u.length + 1 :=
  c2_row_ingested_never_error {} {} "1.0 2.0".data (by decide) (by decide)

/-- Claim C4: `c4File` declares the pore-pressure column (semantic code 6) at
zero-based index 0 and its data row holds 0.5 there, but the parse appends
0.0 instead of the raw value: `metadata.columnInfo[GEF_COLUMN_U] || -1`
treats the declared index 0 as falsy and collapses it to -1 (undeclared).
The claim (and the spec's "if declared, append its raw value") is violated
exactly at index 0; this is the JavaScript `||`-on-a-0-based-index slip. -/
theorem c4_pore_pressure_index0_bug :
    assocLookup c4Md.columnInfo (some GEF_COLUMN_U) = some (some 0) ∧
    jsIndex (rowArgs c4Md "0.5 1.0 2.0 3.0".data) (some 0) = JsNum.num ⟨1, 2⟩ ∧
    resOk (readGef c4File) = true ∧
    resU (readGef c4File) = [JsNum.num ⟨0, 1⟩] := by decide

/-- Claim C6: the friction-ratio pass computes, for every index `i` over the
ingested rows, `CPT_FR_MAX = 10.0` when `coneResistance[i] === 0.0` and
`(sleeveFriction[i] / coneResistance[i]) * 100.0` otherwise. -/
theorem c6_fr_formula (qcs fss : List JsNum) (i : Nat) (h : i < qcs.length) :
    (computeFr qcs fss).getD i .nan =
      if jsEq (qcs.getD i .nan) (.num ⟨0, 1⟩) = true then CPT_FR_MAX
      else jsMul (jsDiv (fss.getD i .nan) (qcs.getD i .nan)) (.num ⟨100, 1⟩) := by
  induction qcs generalizing i fss with
  | nil => exact absurd h (by simp)
  | cons q qt ih =>
    cases i with
    | zero => cases fss <;> simp [computeFr]
    | succ n =>
      have hn : n < qt.length := by simpa using h
      cases fss with
      | nil => simpa [computeFr] using ih [] n hn
      | cons f ft => simpa [computeFr] using ih ft n hn

theorem c6_fr_formula_witness :
    (computeFr [JsNum.num ⟨0, 1⟩] [JsNum.num ⟨5, 1⟩]).getD 0 .nan = CPT_FR_MAX :=
  (c6_fr_formula [JsNum.num ⟨0, 1⟩] [JsNum.num ⟨5, 1⟩] 0 (by decide)).trans (by decide)

theorem survivors_count_add (md : Metadata) (top : JsNum) (ls : List Str) :
    dataRowCount ls = voidRowCount md ls + nanDepthRowCount top md ls +
      countNonNan ((ls.filter (keptRow md)).map (fun l => rowDz top md (rowArgs md l))) := by
  induction ls with
  | nil => rfl
  | cons l ls ih =>
    simp only [dataRowCount, voidRowCount, nanDepthRowCount, countNonNan,
      List.filter_cons] at ih ⊢
    by_cases h1 : (trim l).isEmpty = true
    · have hk : keptRow md l = false := by simp [keptRow, h1]
      simpa [h1, hk] using ih
    · simp only [Bool.not_eq_true] at h1
      by_cases h2 : rowIsVoid md (rowArgs md l) = true
      · have hk : keptRow md l = false := by simp [keptRow, h2]
        simp [h1, h2, hk]
        omega
      · simp only [Bool.not_eq_true] at h2
        have hk : keptRow md l = true := by simp [keptRow, h1, h2]
        by_cases h3 : (rowDz top md (rowArgs md l)).isNaN = true
        · simp [h1, h2, h3, hk]
          omega
        · simp only [Bool.not_eq_true] at h3
          simp [h1, h2, h3, hk]
          omega

/-- Claim C5: after a successful build of the profile from the data lines
(`ingestData` from empty sequences followed by `postProcess`, the
ProfileBuilder contract), the five output sequences have equal length, and
that length is the number of (non-blank) input data rows minus the rows
dropped by a void-sentinel match minus the rows dropped for NaN depth. -/
theorem c5_lengths_and_count (md : Metadata) (cpt0 : Cpt) (ls : List Str) (out : Cpt)
    (h0 : cpt0.z = []) (h : postProcess (ingestData md cpt0 ls) = .ok out) :
    out.qc.length = out.z.length ∧ out.fs.length = out.z.length ∧
    out.fr.length = out.z.length ∧ out.u.length = out.z.length ∧
    out.z.length = dataRowCount ls - voidRowCount md ls - nanDepthRowCount cpt0.top md ls := by
  obtain ⟨hz, hqc, hfs, hfr, hu, -⟩ := postProcess_ok_fields (ingestData md cpt0 ls) out h
  have hl := filterRows_lengths (ingestData md cpt0 ls).z (ingestData md cpt0 ls).qc
    (ingestData md cpt0 ls).fs
    (computeFr (ingestData md cpt0 ls).qc (ingestData md cpt0 ls).fs) (ingestData md cpt0 ls).u
  have hzl : out.z.length = countNonNan (ingestData md cpt0 ls).z := by rw [hz]; exact hl.1
  refine ⟨?_, ?_, ?_, ?_, ?_⟩
  · rw [hqc, hzl]; exact hl.2.1
  · rw [hfs, hzl]; exact hl.2.2.1
  · rw [hfr, hzl]; exact hl.2.2.2.1
  · rw [hu, hzl]; exact hl.2.2.2.2
  · have hiz := (ingestData_z md ls cpt0).1
    rw [h0] at hiz
    simp only [List.nil_append] at hiz
    have hcount := survivors_count_add md cpt0.top ls
    rw [hzl, hiz]
    omega

theorem c5_lengths_and_count_witness :
    (resCpt (postProcess (ingestData c5Md {} c5Lines))).qc.length =
      (resCpt (postProcess (ingestData c5Md {} c5Lines))).z.length ∧
    (resCpt (postProcess (ingestData c5Md {} c5Lines))).fs.length =
      (resCpt (postProcess (ingestData c5Md {} c5Lines))).z.length ∧
    (resCpt (postProcess (ingestData c5Md {} c5Lines))).fr.length =
      (resCpt (postProcess (ingestData c5Md {} c5Lines))).z.length ∧
    (resCpt (postProcess (ingestData c5Md {} c5Lines))).u.length =
      (resCpt (postProcess (ingestData c5Md {} c5Lines))).z.length ∧
    (resCpt (postProcess (ingestData c5Md {} c5Lines))).z.length =
      dataRowCount c5Lines - voidRowCount c5Md c5Lines -
        nanDepthRowCount ({} : Cpt).top c5Md c5Lines :=
  c5_lengths_and_count c5Md {} c5Lines (resCpt (postProcess (ingestData c5Md {} c5Lines)))
    (by decide) (by decide)

/-- Claim C7 counterexample: a non-numeric year param parses to NaN, which
passes every range check in `parseDate` (JS comparisons with NaN are all
false), so the invalid input `["abc","5","7"]` yields the non-empty string
"NaN0507" instead of the empty string the claim requires. -/
theorem c7_parseDate_nan_counterexample :
    parseDate ["abc".data, "5".data, "7".data] = "NaN0507".data ∧
    "NaN0507".data ≠ ([] : Str) := by decide

/-- Claim C7 (amended): `parseDate` reads the first three params as integers
year, month, day; when all three parse to actual integers it returns the
zero-padded `YYYYMMDD` string exactly when year is in [1900,2100], month in
[1,12] and day in [1,31], and the empty string otherwise; with fewer than
three params (where the source's `.trim()` on `undefined` throws and is
swallowed) it returns the empty string, so date failures never propagate.
A param that parses to NaN, however, passes the range validation vacuously
and produces a string containing "NaN" rather than the empty string. -/
theorem c7_parseDate_amended (p0 p1 p2 : Str) (rest : List Str) (y m d : Int)
    (hy : jsParseInt (trim p0) = some y) (hm : jsParseInt (trim p1) = some m)
    (hd : jsParseInt (trim p2) = some d) :
    (parseDate (p0 :: p1 :: p2 :: rest) =
      if 1900 ≤ y ∧ y ≤ 2100 ∧ 1 ≤ m ∧ m ≤ 12 ∧ 1 ≤ d ∧ d ≤ 31 then
        jsIntToStr (some y) ++ pad2 (jsIntToStr (some m)) ++ pad2 (jsIntToStr (some d))
      else []) ∧
    (∀ ps : List Str, ps.length < 3 → parseDate ps = []) := by
  constructor
  · simp only [parseDate, hy, hm, hd, jsIntLt, jsIntGt]
    by_cases hcond : 1900 ≤ y ∧ y ≤ 2100 ∧ 1 ≤ m ∧ m ≤ 12 ∧ 1 ≤ d ∧ d ≤ 31
    · rw [if_pos hcond]
      have hb : (decide (y < 1900) || decide (2100 < y) || decide (m < 1) ||
          decide (12 < m) || decide (d < 1) || decide (31 < d)) = false := by
        simp only [Bool.or_eq_false_iff, decide_eq_false_iff_not, not_lt]
        omega
      rw [hb]
      simp
    · rw [if_neg hcond]
      have hb : (decide (y < 1900) || decide (2100 < y) || decide (m < 1) ||
          decide (12 < m) || decide (d < 1) || decide (31 < d)) = true := by
        simp only [Bool.or_eq_true, decide_eq_true_eq]
        omega
      rw [hb]
      simp
  · intro ps hps
    rcases ps with _ | ⟨a, _ | ⟨b, _ | ⟨c, t⟩⟩⟩
    · rfl
    · rfl
    · rfl
    · exact absurd hps (by simp)

theorem c7_parseDate_amended_witness :
    parseDate ["2023".data, "5".data, "7".data] = "20230507".data ∧
    parseDate ["1899".data, "5".data, "7".data] = ([] : Str) := by
  constructor
  · have h := (c7_parseDate_amended "2023".data "5".data "7".data [] 2023 5 7
      (by decide) (by decide) (by decide)).1
    rw [h]
    decide
  · have h := (c7_parseDate_amended "1899".data "5".data "7".data [] 1899 5 7
      (by decide) (by decide) (by decide)).1
    rw [h]
    decide

theorem readGefLines_append (pre : List Str) : ∀ (ls : List Str) (md : Metadata) (cpt : Cpt)
    (cpt' : Cpt) (md' : Metadata),
    (∀ l ∈ pre, containsSub l "#EOH".data = false) →
    foldHeader pre md cpt = .ok (cpt', md') →
    readGefLines (pre ++ ls) md cpt = readGefLines ls md' cpt' := by
  induction pre with
  | nil =>
    intro ls md cpt cpt' md' _ hf
    injection hf with h'
    injection h' with h1 h2
    subst h1; subst h2
    rfl
  | cons l pre ih =>
    intro ls md cpt cpt' md' hpre hf
    simp only [foldHeader] at hf
    have hne := hpre l (List.mem_cons_self _ _)
    cases hh : parseHeaderLine cpt md l with
    | error e => rw [hh] at hf; exact Except.noConfusion hf
    | ok r =>
      rw [hh] at hf
      simp only [List.cons_append, readGefLines, hne, Bool.false_eq_true, if_false]
      rw [hh]
      exact ih ls r.2 r.1 cpt' md' (fun x hx => hpre x (List.mem_cons_of_mem l hx)) hf

theorem applyHeaderKeyword_bore (cpt : Cpt) (md : Metadata) (kw : Str) (ps : List Str)
    (hkw : kw = "PROCEDURECODE".data ∨ kw = "REPORTCODE".data)
    (hbore : containsSub (toUpperStr (ps.headD [])) "BORE".data = true) :
    applyHeaderKeyword cpt md kw ps = .error .boreFile := by
  unfold applyHeaderKeyword
  rw [if_pos hkw, if_pos hbore]

/-- Claim C8: whenever the header lines before a PROCEDURECODE/REPORTCODE
line parse successfully (and none of them contains the end-of-header
marker), and that line's first parameter contains "BORE" case-insensitively,
the whole parse fails with the borehole error (wrapped, as in the source's
`catch`, with the offending header line) — for every continuation `rest`,
so no data line is ever processed. -/
theorem c8_bore_header_fails (pre : List Str) (bl : Str) (rest : List Str)
    (cpt' : Cpt) (md' : Metadata) (a0 a1 : Str) (restA : List Str)
    (hpre : ∀ l ∈ pre, containsSub l "#EOH".data = false)
    (hfold : foldHeader pre {} {} = .ok (cpt', md'))
    (hbl : containsSub bl "#EOH".data = false)
    (hsplit : splitOn "=".data bl = a0 :: a1 :: restA)
    (hkw : replaceFirst "#".data (trim a0) = "PROCEDURECODE".data ∨
           replaceFirst "#".data (trim a0) = "REPORTCODE".data)
    (hbore : containsSub (toUpperStr ((splitOn ",".data (trim a1)).headD []))
      "BORE".data = true) :
    readGefLines (pre ++ bl :: rest) {} {} = .error (.headerLine bl .boreFile) := by
  rw [readGefLines_append pre (bl :: rest) {} {} cpt' md' hpre hfold]
  have hcore : parseHeaderLineCore cpt' md' bl = .error .boreFile := by
    unfold parseHeaderLineCore
    rw [hsplit]
    exact applyHeaderKeyword_bore cpt' md' _ _ hkw hbore
  have hph : parseHeaderLine cpt' md' bl = .error (.headerLine bl .boreFile) := by
    unfold parseHeaderLine
    rw [hcore]
  simp only [readGefLines, hbl, Bool.false_eq_true, if_false]
  rw [hph]

theorem c8_bore_header_fails_witness :
    readGefLines
      ([] ++ "#PROCEDURECODE=SIKB0101_BOREHOLE".data :: ["#EOH".data, "1.0 2.0 0.5".data])
      {} {} =
      .error (.headerLine "#PROCEDURECODE=SIKB0101_BOREHOLE".data .boreFile) :=
  c8_bore_header_fails [] "#PROCEDURECODE=SIKB0101_BOREHOLE".data
    ["#EOH".data, "1.0 2.0 0.5".data] {} {} "#PROCEDURECODE".data "SIKB0101_BOREHOLE".data []
    (by simp) (by decide) (by decide) (by decide) (Or.inl (by decide)) (by decide)

theorem assocLookup_insertReplace {α β : Type} [DecidableEq α] (k : α) (v : β)
    (l : List (α × β)) : assocLookup (insertReplace k v l) k = some v := by
  induction l with
  | nil => simp [insertReplace, assocLookup]
  | cons kv t ih =>
    obtain ⟨k', v'⟩ := kv
    by_cases hk : k' = k
    · simp [insertReplace, hk, assocLookup]
    · simp [insertReplace, hk, assocLookup, ih]

/-- Claim C9: a COLUMNINFO line with semantic code 11 (corrected depth) acts
on the metadata exactly as one with code 1 (plain depth), so both populate
the same semantic slot; when both are declared, the later COLUMNINFO wins
(in either order), because the JS object assignment overwrites the key. The
last conjunct ties this to an actual COLUMNINFO header line. -/
theorem c9_corrected_depth_slot (cpt : Cpt) (md : Metadata) (col colA colB : JsInt) :
    applyColumnInfo md col (some GEF_COLUMN_Z_CORRECTED) =
      applyColumnInfo md col (some GEF_COLUMN_Z) ∧
    assocLookup (applyColumnInfo (applyColumnInfo md colA (some GEF_COLUMN_Z)) colB
      (some GEF_COLUMN_Z_CORRECTED)).columnInfo (some GEF_COLUMN_Z) = some (jsIntSub1 colB) ∧
    assocLookup (applyColumnInfo (applyColumnInfo md colA (some GEF_COLUMN_Z_CORRECTED)) colB
      (some GEF_COLUMN_Z)).columnInfo (some GEF_COLUMN_Z) = some (jsIntSub1 colB) ∧
    parseHeaderLineCore cpt md "#COLUMNINFO=4,m,depth,11".data =
      .ok (cpt, applyColumnInfo md (some 4) (some 11)) := by
  refine ⟨?_, ?_, ?_, rfl⟩
  · simp [applyColumnInfo, GEF_COLUMN_Z, GEF_COLUMN_Z_CORRECTED]
  · simp only [applyColumnInfo, GEF_COLUMN_Z, GEF_COLUMN_Z_CORRECTED, reduceIte]
    exact assocLookup_insertReplace _ _ _
  · simp only [applyColumnInfo, GEF_COLUMN_Z, GEF_COLUMN_Z_CORRECTED, reduceIte]
    exact assocLookup_insertReplace _ _ _

theorem trim_eq_nil_all_ws (l : Str) (h : trim l = []) :
    ∀ c ∈ l, c.isWhitespace = true := by
  unfold trim at h
  rw [List.reverse_eq_nil_iff, List.dropWhile_eq_nil_iff] at h
  have hdrop : ∀ c ∈ l.dropWhile Char.isWhitespace, c.isWhitespace = true := by
    intro c hc
    exact h c (List.mem_reverse.mpr hc)
  intro c hc
  rw [← List.takeWhile_append_dropWhile (p := Char.isWhitespace) (l := l)] at hc
  rcases List.mem_append.mp hc with h1 | h2
  · exact List.mem_takeWhile_imp h1
  · exact hdrop c h2

theorem splitAux_no_sep (c0 : Char) (l : Str) (hns : ∀ c ∈ l, c ≠ c0) :
    ∀ acc, splitAux [c0] l 0 acc = [acc.reverse ++ l] := by
  induction l with
  | nil => intro acc; simp [splitAux]
  | cons c t ih =>
    intro acc
    have hc : c ≠ c0 := hns c (List.mem_cons_self c t)
    have hpre : ([c0].isPrefixOf (c :: t)) = false := by
      simp [List.isPrefixOf]
      exact Ne.symm hc
    simp only [splitAux, hpre, Bool.false_eq_true, if_false]
    rw [ih (fun x hx => hns x (List.mem_cons_of_mem _ hx)) (c :: acc)]
    simp

theorem splitOn_eq_no_sep (l : Str) (hns : ∀ c ∈ l, c ≠ '=') :
    splitOn "=".data l = [l] := by
  unfold splitOn
  rw [if_neg (by decide)]
  have h := splitAux_no_sep '=' l hns []
  simpa using h

/-- Claim C10: a blank (empty or whitespace-only) line in the header section
fails the parse — it contains no "=", so `args[1].trim()` faults on
`undefined` and the error is wrapped with the offending line — while a blank
line in the data section is silently skipped by `parseDataLine`. The last
conjuncts exhibit both behaviours end to end on whole files. -/
theorem c10_blank_line_policy :
    (∀ (cpt : Cpt) (md : Metadata) (l : Str), trim l = [] →
      parseHeaderLine cpt md l = .error (.headerLine l .typeError)) ∧
    (∀ (cpt : Cpt) (md : Metadata) (l : Str), trim l = [] →
      parseDataLine cpt md l = cpt) ∧
    readGef c10HeaderFile = .error (.headerLine " ".data .typeError) ∧
    resOk (readGef c10DataFile) = true ∧ resZlen (readGef c10DataFile) = 2 := by
  refine ⟨?_, ?_, by decide, by decide, by decide⟩
  · intro cpt md l hl
    have hws := trim_eq_nil_all_ws l hl
    have hns : ∀ c ∈ l, c ≠ '=' := by
      intro c hc he
      have hw := hws c hc
      rw [he] at hw
      exact absurd hw (by decide)
    have hsp := splitOn_eq_no_sep l hns
    unfold parseHeaderLine parseHeaderLineCore
    rw [hsp]
  · intro cpt md l hl
    have hb : (trim l).isEmpty = true := by rw [hl]; rfl
    exact parseDataLine_blank cpt md l hb

theorem c10_blank_line_policy_witness :
    parseHeaderLine {} {} " ".data = .error (.headerLine " ".data .typeError) ∧
    parseDataLine {} {} " ".data = {} :=
  ⟨c10_blank_line_policy.1 {} {} " ".data (by decide),
   c10_blank_line_policy.2.1 {} {} " ".data (by decide)⟩
